import Mathlib

/-!
Shallow embedding of the browser sampler's audio engine
(`public/js/audioEngine.js`, class `AudioEngine`) and proofs about it.

Modelling conventions:
* JS numbers are modelled as exact rationals (`ℚ`); `Math.min`/`Math.max`
  are `min`/`max` on `ℚ`.
* Pad indices are `ℤ` (JS numbers used as array indices), with the source's
  explicit range guards (`padIndex < 0 || padIndex > 15`) translated as is.
* The per-pad arrays of the `AudioEngine` constructor become total functions
  `ℤ → _`; only indices 0..15 are ever touched by the guarded operations.
* Web Audio node graphs are abstracted to the bookkeeping the engine itself
  performs: each started `AudioBufferSourceNode` becomes a `Voice` with a
  fresh numeric id (value equality of ids models JS reference identity),
  the set of sources that have been started and not yet stopped is the
  `liveVoices` list, and scheduled / observable actions (audio-thread
  scheduling, progress callbacks) are recorded in an `events` trace.
* Asynchronous fetch/decode results are supplied by explicit oracle
  arguments (`Option AudioBuffer`): `none` models any network/decode
  failure, `some b` a successful decode.
-/

/-- A decoded audio buffer (Web Audio `AudioBuffer`): channel count, frame
length, sample rate and per-channel sample data. -/
structure AudioBuffer where
  numberOfChannels : ℕ
  length : ℕ
  sampleRate : ℚ
  data : List (List ℚ)
deriving DecidableEq

/-- Well-formedness of an `AudioBuffer`: there are `numberOfChannels`
channel arrays, each holding `length` samples (guaranteed by
`audioContext.createBuffer` / `decodeAudioData`). -/
def AudioBuffer.wf (b : AudioBuffer) : Prop :=
  b.data.length = b.numberOfChannels ∧ ∀ ch ∈ b.data, ch.length = b.length

instance (b : AudioBuffer) : Decidable b.wf := by
  unfold AudioBuffer.wf
  infer_instance

/-- Sample of channel `c` at index `i` (out of range reads default to 0,
matching `Float32Array` zero fill for the in-range indices we use). -/
def AudioBuffer.sample (b : AudioBuffer) (c i : ℕ) : ℚ :=
  (b.data.getD c []).getD i 0

/-- `buffer.duration` of Web Audio: `length / sampleRate` seconds. -/
def AudioBuffer.duration (b : AudioBuffer) : ℚ :=
  (b.length : ℚ) / b.sampleRate

/-- One in-flight playback instance: the source node created by
`playSound`.  `id` is a fresh counter value; equality of ids models JS
reference identity (`===`) between source nodes. -/
structure Voice where
  id : ℕ
  pad : ℤ
deriving DecidableEq

/-- Play mode of a pad: `'oneshot'` or `'gate'`. -/
inductive PlayMode where
  | oneshot
  | gate
deriving DecidableEq

/-- Observable actions of the engine: progress / per-pad callbacks issued
by `loadPreset`, and source start/stop actions (immediate or scheduled on
the audio thread). -/
inductive Event where
  | progress (k total : ℕ)
  | padLoaded (pad : ℤ) (ok : Bool)
  | voiceStarted (id : ℕ) (pad : ℤ)
  | voiceStopped (id : ℕ)
  | gainRampScheduled (gainId : ℕ) (target endTime : ℚ)
  | stopScheduled (id : ℕ) (time : ℚ)
deriving DecidableEq

/-- The mutable state of the `AudioEngine` class (fields of the
constructor), after a successful `init()` when `ready = true`.
`currentTime` is `audioContext.currentTime`; synchronous calls do not
advance it.  `nextVoiceId` / `nextRecorderId` are the fresh-identity
counters for created nodes, and `events` is the trace of observable
actions. -/
structure AudioEngine where
  ready : Bool
  currentTime : ℚ
  buffers : ℤ → Option AudioBuffer
  soundUrls : ℤ → Option String
  trimStart : ℤ → ℚ
  trimEnd : ℤ → ℚ
  loopEnabled : ℤ → Bool
  pitch : ℤ → ℚ
  volume : ℤ → ℚ
  reverse : ℤ → Bool
  playMode : ℤ → PlayMode
  attack : ℤ → ℚ
  release : ℤ → ℚ
  activeSources : ℤ → Option Voice
  activeGains : ℤ → Option ℕ
  nextVoiceId : ℕ
  liveVoices : List Voice
  isRecordingTrack : Bool
  trackRecordingChunks : List ℕ
  trackRecorder : Option ℕ
  nextRecorderId : ℕ
  events : List Event

/-- The engine right after `new AudioEngine()` followed by a successful
`init()`: the constructor's field defaults. -/
def initEngine : AudioEngine where
  ready := true
  currentTime := 0
  buffers := fun _ => none
  soundUrls := fun _ => none
  trimStart := fun _ => 0
  trimEnd := fun _ => 1
  loopEnabled := fun _ => false
  pitch := fun _ => 1
  volume := fun _ => 1
  reverse := fun _ => false
  playMode := fun _ => PlayMode.oneshot
  attack := fun _ => 1/100
  release := fun _ => 1/10
  activeSources := fun _ => none
  activeGains := fun _ => none
  nextVoiceId := 0
  liveVoices := []
  isRecordingTrack := false
  trackRecordingChunks := []
  trackRecorder := none
  nextRecorderId := 0
  events := []

/-- `setTrimStart(padIndex, value)`:
`this.trimStart[padIndex] = Math.max(0, Math.min(value, this.trimEnd[padIndex] - 0.01))`. -/
def setTrimStart (e : AudioEngine) (p : ℤ) (v : ℚ) : AudioEngine :=
  if p < 0 ∨ 15 < p then e
  else { e with
    trimStart := fun q =>
      if q = p then max 0 (min v (e.trimEnd p - 1/100)) else e.trimStart q }

/-- `setTrimEnd(padIndex, value)`:
`this.trimEnd[padIndex] = Math.min(1, Math.max(value, this.trimStart[padIndex] + 0.01))`. -/
def setTrimEnd (e : AudioEngine) (p : ℤ) (v : ℚ) : AudioEngine :=
  if p < 0 ∨ 15 < p then e
  else { e with
    trimEnd := fun q =>
      if q = p then min 1 (max v (e.trimStart p + 1/100)) else e.trimEnd q }

/-- A single trim-setter call in a call sequence. -/
inductive TrimOp where
  | setStart (p : ℤ) (v : ℚ)
  | setEnd (p : ℤ) (v : ℚ)

/-- Apply one trim-setter call. -/
def applyTrimOp (e : AudioEngine) : TrimOp → AudioEngine
  | TrimOp.setStart p v => setTrimStart e p v
  | TrimOp.setEnd p v => setTrimEnd e p v

/-- The documented trim invariant at pad `q`:
`0 ≤ trimStart < trimEnd ≤ 1` and `trimEnd − trimStart ≥ 0.01`. -/
def TrimInvAt (e : AudioEngine) (q : ℤ) : Prop :=
  0 ≤ e.trimStart q ∧ e.trimStart q < e.trimEnd q ∧ e.trimEnd q ≤ 1 ∧
    1/100 ≤ e.trimEnd q - e.trimStart q

lemma trimInvAt_init (q : ℤ) : TrimInvAt initEngine q := by
  unfold TrimInvAt initEngine
  norm_num

lemma setTrimStart_trimEnd (e : AudioEngine) (p : ℤ) (v : ℚ) :
    (setTrimStart e p v).trimEnd = e.trimEnd := by
  unfold setTrimStart
  split <;> rfl

lemma setTrimEnd_trimStart (e : AudioEngine) (p : ℤ) (v : ℚ) :
    (setTrimEnd e p v).trimStart = e.trimStart := by
  unfold setTrimEnd
  split <;> rfl

lemma setTrimStart_inv (e : AudioEngine) (p : ℤ) (v : ℚ) (q : ℤ)
    (h : TrimInvAt e q) : TrimInvAt (setTrimStart e p v) q := by
  unfold TrimInvAt at *
  unfold setTrimStart
  split
  · exact h
  · simp only
    by_cases hq : q = p
    · subst hq
      simp only [eq_self_iff_true, if_true]
      obtain ⟨h1, h2, h3, h4⟩ := h
      have hub : max 0 (min v (e.trimEnd q - 1/100)) ≤ e.trimEnd q - 1/100 := by
        apply max_le
        · linarith
        · exact min_le_right _ _
      refine ⟨le_max_left _ _, by linarith, h3, by linarith⟩
    · simp only [if_neg hq]
      exact h

lemma setTrimEnd_inv (e : AudioEngine) (p : ℤ) (v : ℚ) (q : ℤ)
    (h : TrimInvAt e q) : TrimInvAt (setTrimEnd e p v) q := by
  unfold TrimInvAt at *
  unfold setTrimEnd
  split
  · exact h
  · simp only
    by_cases hq : q = p
    · subst hq
      simp only [eq_self_iff_true, if_true]
      obtain ⟨h1, h2, h3, h4⟩ := h
      have hlb : e.trimStart q + 1/100 ≤ min 1 (max v (e.trimStart q + 1/100)) := by
        apply le_min
        · linarith
        · exact le_max_right _ _
      refine ⟨h1, by linarith, min_le_left _ _, by linarith⟩
    · simp only [if_neg hq]
      exact h

lemma applyTrimOp_inv (e : AudioEngine) (op : TrimOp) (q : ℤ)
    (h : TrimInvAt e q) : TrimInvAt (applyTrimOp e op) q := by
  cases op with
  | setStart p v => exact setTrimStart_inv e p v q h
  | setEnd p v => exact setTrimEnd_inv e p v q h

lemma foldl_trimOps_inv (ops : List TrimOp) (e : AudioEngine) (q : ℤ)
    (h : TrimInvAt e q) : TrimInvAt (ops.foldl applyTrimOp e) q := by
  induction ops generalizing e with
  | nil => exact h
  | cons op rest ih => exact ih _ (applyTrimOp_inv e op q h)

/-- C1: starting from the default trim window `[0,1]`, after every sequence
of `setTrimStart`/`setTrimEnd` calls with arbitrary arguments, every pad
`p ∈ [0,15]` satisfies `0 ≤ trimStart < trimEnd ≤ 1` and
`trimEnd − trimStart ≥ 0.01`. -/
theorem trim_invariant_all_sequences (ops : List TrimOp) (p : Fin 16) :
    let e := ops.foldl applyTrimOp initEngine
    0 ≤ e.trimStart (p : ℤ) ∧
      e.trimStart (p : ℤ) < e.trimEnd (p : ℤ) ∧
      e.trimEnd (p : ℤ) ≤ 1 ∧
      1/100 ≤ e.trimEnd (p : ℤ) - e.trimStart (p : ℤ) :=
  foldl_trimOps_inv ops initEngine (p : ℤ) (trimInvAt_init _)

/-- `getReversedBuffer(buffer)`: fresh buffer with the same channel count,
length and sample rate; for each channel, `reversedData[i] =
original[buffer.length - 1 - i]` for `i` in `[0, buffer.length)`. -/
def getReversedBuffer (b : AudioBuffer) : AudioBuffer where
  numberOfChannels := b.numberOfChannels
  length := b.length
  sampleRate := b.sampleRate
  data := b.data.map (fun ch =>
    (List.range b.length).map (fun i => ch.getD (b.length - 1 - i) 0))

/-- `stopSound(padIndex, useRelease = false)`: no-op when out of range or
when either slot reference is absent; otherwise either stops the source at
once (removing it from the live set) or schedules the release gain ramp
and a deferred `source.stop(now + release)` (the source keeps sounding
until then); in both cases the `activeSources`/`activeGains` slots are
cleared immediately. -/
def stopSound (e : AudioEngine) (p : ℤ) (useRelease : Bool) : AudioEngine :=
  if p < 0 ∨ 15 < p then e
  else
    match e.activeSources p, e.activeGains p with
    | some v, some g =>
        let e1 :=
          if useRelease then
            { e with events := e.events ++
                [Event.gainRampScheduled g 0 (e.currentTime + e.release p),
                 Event.stopScheduled v.id (e.currentTime + e.release p)] }
          else
            { e with
                liveVoices := e.liveVoices.filter (fun w => decide (w.id ≠ v.id)),
                events := e.events ++ [Event.voiceStopped v.id] }
        { e1 with
            activeSources := fun q => if q = p then none else e1.activeSources q,
            activeGains := fun q => if q = p then none else e1.activeGains q }
    | _, _ => e

/-- `isPlaying(padIndex)`: `this.activeSources[padIndex] !== null`. -/
def isPlaying (e : AudioEngine) (p : ℤ) : Bool :=
  (e.activeSources p).isSome

/-- `playSound(padIndex)`: guard the index and the buffer, stop any
existing playback on the pad (hard cut, no release), resolve the effective
buffer (reversed when the reverse flag is set), create and start a fresh
source/gain pair, and register it as the pad's active voice. -/
def playSound (e : AudioEngine) (p : ℤ) : AudioEngine × Bool :=
  if p < 0 ∨ 15 < p then (e, false)
  else
    match e.buffers p with
    | none => (e, false)
    | some buffer =>
        let e1 := stopSound e p false
        let _playBuffer := if e1.reverse p then getReversedBuffer buffer else buffer
        let v : Voice := ⟨e1.nextVoiceId, p⟩
        ({ e1 with
            nextVoiceId := e1.nextVoiceId + 1,
            liveVoices := v :: e1.liveVoices,
            activeSources := fun q => if q = p then some v else e1.activeSources q,
            activeGains := fun q => if q = p then some e1.nextVoiceId else e1.activeGains q,
            events := e1.events ++ [Event.voiceStarted e1.nextVoiceId p] }, true)

/-- The `source.onended` closure installed by `playSound`: when the voice
`v` ends naturally it clears the pad's slots only if `v` is still (by
identity) the registered active source of the pad. -/
def onEnded (e : AudioEngine) (p : ℤ) (v : Voice) : AudioEngine :=
  if e.activeSources p = some v then
    { e with
        activeSources := fun q => if q = p then none else e.activeSources q,
        activeGains := fun q => if q = p then none else e.activeGains q }
  else e

/-- `loadBuffer(buffer, padIndex)`: store a raw decoded buffer in a pad,
with the `'recorded-audio'` placeholder URL and a reset trim window. -/
def loadBuffer (e : AudioEngine) (buffer : AudioBuffer) (p : ℤ) :
    AudioEngine × Bool :=
  if p < 0 ∨ 15 < p then (e, false)
  else
    ({ e with
        buffers := fun q => if q = p then some buffer else e.buffers q,
        soundUrls := fun q => if q = p then some "recorded-audio" else e.soundUrls q,
        trimStart := fun q => if q = p then 0 else e.trimStart q,
        trimEnd := fun q => if q = p then 1 else e.trimEnd q }, true)

/-- `loadSound(url, padIndex)`: the index guard, then fetch + decode
(outcome supplied by the `fetched` oracle; `none` is any network/decode
failure, caught in the source's `try`/`catch` which leaves the slot
untouched and returns false).  On success the decoded buffer and the
original URL are stored. -/
def loadSound (e : AudioEngine) (url : String) (p : ℤ)
    (fetched : Option AudioBuffer) : AudioEngine × Bool :=
  if p < 0 ∨ 15 < p then (e, false)
  else
    match fetched with
    | none => (e, false)
    | some buf =>
        ({ e with
            buffers := fun q => if q = p then some buf else e.buffers q,
            soundUrls := fun q => if q = p then some url else e.soundUrls q }, true)

/-- The boolean `loadSound` reports for a pad index and a fetch outcome. -/
def loadSoundOk (p : ℤ) (fetched : Option AudioBuffer) : Bool :=
  if p < 0 ∨ 15 < p then false else fetched.isSome

/-- One entry of a preset descriptor's `sounds` list. -/
structure PresetSound where
  url : String
  pad : ℤ
deriving DecidableEq

/-- A fetched-and-parsed preset descriptor. -/
structure Preset where
  name : String
  sounds : List PresetSound

/-- The `for (const sound of preset.sounds)` loop of `loadPreset`: load
each sound sequentially, then invoke `onPadLoaded(sound.pad, success)` and
`onProgress(++loadedSounds, totalSounds)` (recorded as events). -/
def loadPresetLoop (e : AudioEngine) (sounds : List PresetSound)
    (total loaded : ℕ) (oracle : PresetSound → Option AudioBuffer) :
    AudioEngine :=
  match sounds with
  | [] => e
  | s :: rest =>
      let r := loadSound e s.url s.pad (oracle s)
      let e2 := { r.1 with events := r.1.events ++
        [Event.padLoaded s.pad r.2, Event.progress (loaded + 1) total] }
      loadPresetLoop e2 rest total (loaded + 1) oracle

/-- `loadPreset(presetId, onPadLoaded, onProgress)`: `fetched` is the
outcome of fetching and parsing the preset descriptor (`none` = any
failure, caught before anything is mutated).  On success all 16 buffer
and URL slots are cleared, `onProgress(0, total)` fires, then each sound
loads sequentially; per-sound failures do not abort the loop and the call
returns true. -/
def loadPreset (e : AudioEngine) (fetched : Option Preset)
    (oracle : PresetSound → Option AudioBuffer) : AudioEngine × Bool :=
  match fetched with
  | none => (e, false)
  | some preset =>
      let e1 := { e with
        buffers := fun _ => none,
        soundUrls := fun _ => none }
      let total := preset.sounds.length
      let e2 := { e1 with events := e1.events ++ [Event.progress 0 total] }
      (loadPresetLoop e2 preset.sounds total 0 oracle, true)

/-- `startTrackRecording()`: fails when the context/record destination is
missing or a track recording is already in progress; otherwise resets the
chunk list, creates a fresh `MediaRecorder`, starts it and sets the flag. -/
def startTrackRecording (e : AudioEngine) : AudioEngine × Bool :=
  if e.ready = false then (e, false)
  else if e.isRecordingTrack then (e, false)
  else
    ({ e with
        trackRecordingChunks := [],
        trackRecorder := some e.nextRecorderId,
        nextRecorderId := e.nextRecorderId + 1,
        isRecordingTrack := true }, true)

lemma clamp_lower_closest (a b v : ℚ) (hab : a ≤ b) :
    a ≤ max a (min v b) ∧ max a (min v b) ≤ b ∧
      ∀ x, a ≤ x → x ≤ b → |max a (min v b) - v| ≤ |x - v| := by
  rcases le_total v a with hva | hav
  · have hvb : v ≤ b := le_trans hva hab
    rw [min_eq_left hvb, max_eq_left hva]
    refine ⟨le_refl _, hab, fun x hax hxb => ?_⟩
    rw [abs_of_nonneg (by linarith), abs_of_nonneg (by linarith)]
    linarith
  · rcases le_total v b with hvb | hbv
    · rw [min_eq_left hvb, max_eq_right hav]
      refine ⟨hav, hvb, fun x hax hxb => ?_⟩
      simp [abs_nonneg]
    · rw [min_eq_right hbv, max_eq_right hab]
      refine ⟨hab, le_refl _, fun x hax hxb => ?_⟩
      rw [abs_of_nonpos (by linarith), abs_of_nonpos (by linarith)]
      linarith

lemma clamp_upper_closest (a b v : ℚ) (hab : a ≤ b) :
    a ≤ min b (max v a) ∧ min b (max v a) ≤ b ∧
      ∀ x, a ≤ x → x ≤ b → |min b (max v a) - v| ≤ |x - v| := by
  rcases le_total v a with hva | hav
  · rw [max_eq_right hva, min_eq_right hab]
    refine ⟨le_refl _, hab, fun x hax hxb => ?_⟩
    rw [abs_of_nonneg (by linarith), abs_of_nonneg (by linarith)]
    linarith
  · rcases le_total v b with hvb | hbv
    · rw [max_eq_left hav, min_eq_right hvb]
      refine ⟨hav, hvb, fun x hax hxb => ?_⟩
      simp [abs_nonneg]
    · rw [max_eq_left hav, min_eq_left hbv]
      refine ⟨hab, le_refl _, fun x hax hxb => ?_⟩
      rw [abs_of_nonpos (by linarith), abs_of_nonpos (by linarith)]
      linarith

lemma setTrimStart_at (e : AudioEngine) (p : ℤ) (v : ℚ)
    (hgd : ¬(p < 0 ∨ 15 < p)) :
    (setTrimStart e p v).trimStart p = max 0 (min v (e.trimEnd p - 1/100)) := by
  unfold setTrimStart
  rw [if_neg hgd]
  simp

lemma setTrimEnd_at (e : AudioEngine) (p : ℤ) (v : ℚ)
    (hgd : ¬(p < 0 ∨ 15 < p)) :
    (setTrimEnd e p v).trimEnd p = min 1 (max v (e.trimStart p + 1/100)) := by
  unfold setTrimEnd
  rw [if_neg hgd]
  simp

/-- C2, counterexample: after `setTrimEnd(0, 0.5)` from defaults, the call
`setTrimStart(0, 0.6)` would — per the claim — keep the moved bound at the
requested `0.6` and push `trimEnd` to `0.61` (which fits below 1).  The code
instead leaves `trimEnd` at `0.5` untouched and clamps the *written* bound
down to `0.49`. -/
theorem trim_other_bound_counterexample :
    (setTrimStart (setTrimEnd initEngine 0 (1/2)) 0 (3/5)).trimStart 0 = 49/100 ∧
    (setTrimStart (setTrimEnd initEngine 0 (1/2)) 0 (3/5)).trimStart 0 ≠ 3/5 ∧
    (setTrimStart (setTrimEnd initEngine 0 (1/2)) 0 (3/5)).trimEnd 0 = 1/2 ∧
    (setTrimEnd initEngine 0 (1/2)).trimEnd 0 = 1/2 := by
  refine ⟨?_, by norm_num [setTrimStart, setTrimEnd, initEngine], ?_, ?_⟩ <;>
    norm_num [setTrimStart, setTrimEnd, initEngine]

/-- C2, amended: when a trim write would violate the minimum 1% window the
engine clamps the *written* (moved) bound — setting it to the value of the
feasible interval (`[0, trimEnd − 0.01]` for `setTrimStart`,
`[trimStart + 0.01, 1]` for `setTrimEnd`) closest to the requested `v` —
and never modifies the other bound. -/
theorem trim_setters_clamp_written_bound (e : AudioEngine) (p : ℤ) (v : ℚ)
    (hp : 0 ≤ p) (hp15 : p ≤ 15)
    (h1 : 0 ≤ e.trimStart p) (h2 : e.trimEnd p ≤ 1)
    (h3 : 1/100 ≤ e.trimEnd p - e.trimStart p) :
    ((setTrimStart e p v).trimEnd p = e.trimEnd p ∧
      0 ≤ (setTrimStart e p v).trimStart p ∧
      (setTrimStart e p v).trimStart p ≤ e.trimEnd p - 1/100 ∧
      ∀ x, 0 ≤ x → x ≤ e.trimEnd p - 1/100 →
        |(setTrimStart e p v).trimStart p - v| ≤ |x - v|) ∧
    ((setTrimEnd e p v).trimStart p = e.trimStart p ∧
      e.trimStart p + 1/100 ≤ (setTrimEnd e p v).trimEnd p ∧
      (setTrimEnd e p v).trimEnd p ≤ 1 ∧
      ∀ x, e.trimStart p + 1/100 ≤ x → x ≤ 1 →
        |(setTrimEnd e p v).trimEnd p - v| ≤ |x - v|) := by
  have hgd : ¬(p < 0 ∨ 15 < p) := by omega
  constructor
  · rw [setTrimStart_trimEnd, setTrimStart_at e p v hgd]
    obtain ⟨c1, c2, c3⟩ := clamp_lower_closest 0 (e.trimEnd p - 1/100) v (by linarith)
    exact ⟨rfl, c1, c2, c3⟩
  · rw [setTrimEnd_trimStart, setTrimEnd_at e p v hgd]
    obtain ⟨c1, c2, c3⟩ := clamp_upper_closest (e.trimStart p + 1/100) 1 v (by linarith)
    exact ⟨rfl, c1, c2, c3⟩

/-- Witness for the amended C2 theorem at pad 0 of the fresh engine with
requested value 2. -/
theorem trim_setters_clamp_written_bound_witness :
    ((setTrimStart initEngine 0 2).trimEnd 0 = initEngine.trimEnd 0 ∧
      0 ≤ (setTrimStart initEngine 0 2).trimStart 0 ∧
      (setTrimStart initEngine 0 2).trimStart 0 ≤ initEngine.trimEnd 0 - 1/100 ∧
      ∀ x, 0 ≤ x → x ≤ initEngine.trimEnd 0 - 1/100 →
        |(setTrimStart initEngine 0 2).trimStart 0 - 2| ≤ |x - 2|) ∧
    ((setTrimEnd initEngine 0 2).trimStart 0 = initEngine.trimStart 0 ∧
      initEngine.trimStart 0 + 1/100 ≤ (setTrimEnd initEngine 0 2).trimEnd 0 ∧
      (setTrimEnd initEngine 0 2).trimEnd 0 ≤ 1 ∧
      ∀ x, initEngine.trimStart 0 + 1/100 ≤ x → x ≤ 1 →
        |(setTrimEnd initEngine 0 2).trimEnd 0 - 2| ≤ |x - 2|) :=
  trim_setters_clamp_written_bound initEngine 0 2 (by norm_num) (by norm_num)
    (by norm_num [initEngine]) (by norm_num [initEngine]) (by norm_num [initEngine])

lemma stopSound_noop (e : AudioEngine) (p : ℤ) (u : Bool)
    (h : e.activeSources p = none ∨ e.activeGains p = none) :
    stopSound e p u = e := by
  unfold stopSound
  split
  · rfl
  · rcases h with h | h
    · rw [h]
    · rw [h]
      cases e.activeSources p <;> rfl

lemma stopSound_release_eq (e : AudioEngine) (p : ℤ) (v : Voice) (g : ℕ)
    (hgd : ¬(p < 0 ∨ 15 < p))
    (hv : e.activeSources p = some v) (hg : e.activeGains p = some g) :
    stopSound e p true =
      { e with
          events := e.events ++
            [Event.gainRampScheduled g 0 (e.currentTime + e.release p),
             Event.stopScheduled v.id (e.currentTime + e.release p)],
          activeSources := fun q => if q = p then none else e.activeSources q,
          activeGains := fun q => if q = p then none else e.activeGains q } := by
  unfold stopSound
  rw [if_neg hgd, hv, hg]
  rfl

lemma stopSound_hard_eq (e : AudioEngine) (p : ℤ) (v : Voice) (g : ℕ)
    (hgd : ¬(p < 0 ∨ 15 < p))
    (hv : e.activeSources p = some v) (hg : e.activeGains p = some g) :
    stopSound e p false =
      { e with
          liveVoices := e.liveVoices.filter (fun w => decide (w.id ≠ v.id)),
          events := e.events ++ [Event.voiceStopped v.id],
          activeSources := fun q => if q = p then none else e.activeSources q,
          activeGains := fun q => if q = p then none else e.activeGains q } := by
  unfold stopSound
  rw [if_neg hgd, hv, hg]
  rfl

/-- A small decoded buffer used for concrete executions. -/
def testBuffer : AudioBuffer where
  numberOfChannels := 1
  length := 2
  sampleRate := 10
  data := [[1, 5]]

/-- A fresh engine with `testBuffer` loaded on pad 0 and pad 0 playing
(registered voice id 0, gain id 0). -/
def soundingPad0 : AudioEngine :=
  (playSound (loadBuffer initEngine testBuffer 0).1 0).1

/-- C3, counterexample: pad 0 is Sounding; immediately after
`stopSound(0, useRelease = true)` — before any release ramp has elapsed —
`isPlaying(0)` is already false and the registered active voice is already
cleared, contradicting "remains logically Sounding until the ramp
completes". -/
theorem stop_release_not_sounding_counterexample :
    isPlaying soundingPad0 0 = true ∧
    isPlaying (stopSound soundingPad0 0 true) 0 = false ∧
    (stopSound soundingPad0 0 true).activeSources 0 = none := by
  refine ⟨rfl, rfl, rfl⟩

/-- C3, amended: `stop(p, useRelease = true)` on a Sounding pad schedules
the release gain ramp and a deferred `source.stop` at
`currentTime + release`, and the voice itself keeps sounding until then
(it stays in the live set) — but the pad's registration is cleared as part
of issuing the stop, so `isPlaying(p)` reports false immediately and a
subsequent `play(p)` is never blocked by the ramping-out voice. -/
theorem stop_release_schedules_and_clears (e : AudioEngine) (p : ℤ)
    (v : Voice) (g : ℕ) (hp : 0 ≤ p) (hp15 : p ≤ 15)
    (hv : e.activeSources p = some v) (hg : e.activeGains p = some g) :
    isPlaying (stopSound e p true) p = false ∧
    (stopSound e p true).activeSources p = none ∧
    (stopSound e p true).activeGains p = none ∧
    (stopSound e p true).liveVoices = e.liveVoices ∧
    (stopSound e p true).events = e.events ++
      [Event.gainRampScheduled g 0 (e.currentTime + e.release p),
       Event.stopScheduled v.id (e.currentTime + e.release p)] := by
  have hgd : ¬(p < 0 ∨ 15 < p) := by omega
  rw [stopSound_release_eq e p v g hgd hv hg]
  simp [isPlaying]

/-- Witness for the amended C3 theorem on the concrete Sounding pad 0. -/
theorem stop_release_schedules_and_clears_witness :
    isPlaying (stopSound soundingPad0 0 true) 0 = false ∧
    (stopSound soundingPad0 0 true).activeSources 0 = none ∧
    (stopSound soundingPad0 0 true).activeGains 0 = none ∧
    (stopSound soundingPad0 0 true).liveVoices = soundingPad0.liveVoices ∧
    (stopSound soundingPad0 0 true).events = soundingPad0.events ++
      [Event.gainRampScheduled 0 0 (soundingPad0.currentTime + soundingPad0.release 0),
       Event.stopScheduled 0 (soundingPad0.currentTime + soundingPad0.release 0)] :=
  stop_release_schedules_and_clears soundingPad0 0 ⟨0, 0⟩ 0
    (by norm_num) (by norm_num) rfl rfl

/-- C7: a natural-completion callback for a voice that is no longer the
pad's registered active voice (it was superseded) leaves the engine state
completely unchanged — the newer voice's registration stays intact. -/
theorem stale_completion_preserved (e : AudioEngine) (p : ℤ)
    (ended current : Voice)
    (hcur : e.activeSources p = some current) (hne : current ≠ ended) :
    onEnded e p ended = e := by
  have hno : ¬(e.activeSources p = some ended) := by
    rw [hcur]
    exact fun h => hne (Option.some.inj h)
  unfold onEnded
  rw [if_neg hno]

/-- Pad 0 retriggered while Sounding: voice 0 was cut and voice 1 is now
registered. -/
def retriggeredPad0 : AudioEngine :=
  (playSound soundingPad0 0).1

/-- Witness for C7: the stale completion callback of superseded voice 0
fires on the retriggered pad and changes nothing. -/
theorem stale_completion_preserved_witness :
    onEnded retriggeredPad0 0 ⟨0, 0⟩ = retriggeredPad0 :=
  stale_completion_preserved retriggeredPad0 0 ⟨0, 0⟩ ⟨1, 0⟩ rfl (by decide)

/-- C8: `playSound` with an out-of-range index or an empty pad returns
false and leaves the whole engine state unchanged (no voice is created;
an Idle pad stays Idle). -/
theorem play_rejects_empty_or_invalid (e : AudioEngine) (p : ℤ)
    (h : (p < 0 ∨ 15 < p) ∨ e.buffers p = none) :
    playSound e p = (e, false) := by
  unfold playSound
  rcases h with h | h
  · rw [if_pos h]
  · split
    · rfl
    · rw [h]

/-- Witness for C8: playing empty pad 3 of the fresh engine is rejected
with no state change. -/
theorem play_rejects_empty_or_invalid_witness :
    playSound initEngine 3 = (initEngine, false) :=
  play_rejects_empty_or_invalid initEngine 3 (Or.inr rfl)

/-- C9: `startTrackRecording()` while a track recording is already in
progress returns false and changes nothing: the recording flag stays set
and the first session's chunk list and recorder are not reset or
replaced. -/
theorem startTrackRecording_already_recording (e : AudioEngine)
    (h : e.isRecordingTrack = true) :
    startTrackRecording e = (e, false) ∧
    (startTrackRecording e).1.isRecordingTrack = true ∧
    (startTrackRecording e).1.trackRecordingChunks = e.trackRecordingChunks ∧
    (startTrackRecording e).1.trackRecorder = e.trackRecorder := by
  have heq : startTrackRecording e = (e, false) := by
    unfold startTrackRecording
    cases hr : e.ready <;> simp [h]
  refine ⟨heq, ?_, ?_, ?_⟩ <;> rw [heq]
  exact h

/-- An engine in the middle of its first track-recording session. -/
def recordingEngine : AudioEngine :=
  (startTrackRecording initEngine).1

/-- Witness for C9: the second `startTrackRecording` on the concrete
recording engine fails and preserves the session. -/
theorem startTrackRecording_already_recording_witness :
    startTrackRecording recordingEngine = (recordingEngine, false) ∧
    (startTrackRecording recordingEngine).1.isRecordingTrack = true ∧
    (startTrackRecording recordingEngine).1.trackRecordingChunks =
      recordingEngine.trackRecordingChunks ∧
    (startTrackRecording recordingEngine).1.trackRecorder =
      recordingEngine.trackRecorder :=
  startTrackRecording_already_recording recordingEngine rfl

lemma playSound_eq (e : AudioEngine) (p : ℤ) (b : AudioBuffer)
    (hgd : ¬(p < 0 ∨ 15 < p)) (hb : e.buffers p = some b) :
    playSound e p =
      ({ stopSound e p false with
          nextVoiceId := (stopSound e p false).nextVoiceId + 1,
          liveVoices := ⟨(stopSound e p false).nextVoiceId, p⟩ ::
            (stopSound e p false).liveVoices,
          activeSources := fun q =>
            if q = p then some ⟨(stopSound e p false).nextVoiceId, p⟩
            else (stopSound e p false).activeSources q,
          activeGains := fun q =>
            if q = p then some (stopSound e p false).nextVoiceId
            else (stopSound e p false).activeGains q,
          events := (stopSound e p false).events ++
            [Event.voiceStarted (stopSound e p false).nextVoiceId p] }, true) := by
  unfold playSound
  rw [if_neg hgd, hb]

lemma no_pad_voices (l : List Voice) (p : ℤ)
    (h : ∀ w ∈ l, ¬ w.pad = p) :
    l.filter (fun w => decide (w.pad = p)) = [] := by
  apply List.filter_eq_nil_iff.mpr
  intro w hw
  simpa using h w hw

lemma retrigger_finish (e : AudioEngine) (p : ℤ) (b : AudioBuffer)
    (L0 : List Voice) (hgd : ¬(p < 0 ∨ 15 < p))
    (hA2 : (playSound e p).2 = true)
    (hsrc1 : (playSound e p).1.activeSources p = some ⟨e.nextVoiceId, p⟩)
    (hgn1 : (playSound e p).1.activeGains p = some e.nextVoiceId)
    (hb1 : (playSound e p).1.buffers p = some b)
    (hnv1 : (playSound e p).1.nextVoiceId = e.nextVoiceId + 1)
    (hlive1 : (playSound e p).1.liveVoices = ⟨e.nextVoiceId, p⟩ :: L0)
    (hnopad : ∀ w ∈ L0, ¬ w.pad = p) :
    (playSound e p).2 = true ∧
    (playSound (playSound e p).1 p).2 = true ∧
    (playSound (playSound e p).1 p).1.activeSources p =
      some ⟨e.nextVoiceId + 1, p⟩ ∧
    (playSound (playSound e p).1 p).1.liveVoices.filter
      (fun w => decide (w.pad = p)) = [⟨e.nextVoiceId + 1, p⟩] ∧
    (playSound (playSound e p).1 p).1.events =
      (playSound e p).1.events ++
        [Event.voiceStopped e.nextVoiceId,
         Event.voiceStarted (e.nextVoiceId + 1) p] := by
  have hstop2 := stopSound_hard_eq (playSound e p).1 p ⟨e.nextVoiceId, p⟩
    e.nextVoiceId hgd hsrc1 hgn1
  have h2 := playSound_eq (playSound e p).1 p b hgd hb1
  rw [hstop2] at h2
  refine ⟨hA2, by rw [h2], ?_, ?_, ?_⟩
  · rw [h2]
    simp [hnv1]
  · rw [h2]
    simp only
    rw [List.filter_cons_of_pos (by simp)]
    have htail : ((playSound e p).1.liveVoices.filter
        (fun w => decide (w.id ≠ (Voice.mk e.nextVoiceId p).id))).filter
        (fun w => decide (w.pad = p)) = [] := by
      rw [hlive1, List.filter_cons_of_neg (by simp)]
      apply no_pad_voices
      intro w hw
      exact hnopad w (List.mem_of_mem_filter hw)
    rw [htail, hnv1]
  · rw [h2]
    simp only
    rw [hnv1, List.append_assoc]
    rfl

/-- C4: retriggering — with at most the registered voice live on pad `p`
(and the source/gain slots in sync), two successive `playSound(p)` calls
both succeed, the second force-stops the first call's voice (hard cut, no
release) *before* starting the new one, and afterwards exactly one voice
for `p` is live and registered. -/
theorem play_retrigger_cuts_previous_voice (e : AudioEngine) (p : ℤ)
    (b : AudioBuffer) (hp : 0 ≤ p) (hp15 : p ≤ 15)
    (hb : e.buffers p = some b)
    (hinv : ∀ w ∈ e.liveVoices, w.pad = p → e.activeSources p = some w)
    (hgain : e.activeGains p = none ↔ e.activeSources p = none) :
    (playSound e p).2 = true ∧
    (playSound (playSound e p).1 p).2 = true ∧
    (playSound (playSound e p).1 p).1.activeSources p =
      some ⟨e.nextVoiceId + 1, p⟩ ∧
    (playSound (playSound e p).1 p).1.liveVoices.filter
      (fun w => decide (w.pad = p)) = [⟨e.nextVoiceId + 1, p⟩] ∧
    (playSound (playSound e p).1 p).1.events =
      (playSound e p).1.events ++
        [Event.voiceStopped e.nextVoiceId,
         Event.voiceStarted (e.nextVoiceId + 1) p] := by
  have hgd : ¬(p < 0 ∨ 15 < p) := by omega
  have h1 := playSound_eq e p b hgd hb
  cases hv : e.activeSources p with
  | none =>
      rw [stopSound_noop e p false (Or.inl hv)] at h1
      apply retrigger_finish e p b e.liveVoices hgd
      · rw [h1]
      · rw [h1]; simp
      · rw [h1]; simp
      · rw [h1]; exact hb
      · rw [h1]
      · rw [h1]
      · intro w hw hpad
        have := hinv w hw hpad
        rw [hv] at this
        exact Option.noConfusion this
  | some v0 =>
      cases hg : e.activeGains p with
      | none =>
          have := hgain.mp hg
          rw [hv] at this
          exact absurd this (by simp)
      | some g0 =>
          rw [stopSound_hard_eq e p v0 g0 hgd hv hg] at h1
          apply retrigger_finish e p b
            (e.liveVoices.filter (fun w => decide (w.id ≠ v0.id))) hgd
          · rw [h1]
          · rw [h1]; simp
          · rw [h1]; simp
          · rw [h1]; exact hb
          · rw [h1]
          · rw [h1]
          · intro w hw hpad
            have hmem := List.mem_filter.mp hw
            have heq : w = v0 := by
              have := hinv w hmem.1 hpad
              rw [hv] at this
              exact (Option.some.inj this).symm
            have : w.id ≠ v0.id := by simpa using hmem.2
            exact this (congrArg Voice.id heq)

/-- Pad 0 freshly loaded with `testBuffer` (Idle, no live voices). -/
def loadedPad0 : AudioEngine :=
  (loadBuffer initEngine testBuffer 0).1

/-- Witness for C4 on the concrete loaded pad 0. -/
theorem play_retrigger_cuts_previous_voice_witness :
    (playSound loadedPad0 0).2 = true ∧
    (playSound (playSound loadedPad0 0).1 0).2 = true ∧
    (playSound (playSound loadedPad0 0).1 0).1.activeSources 0 =
      some ⟨loadedPad0.nextVoiceId + 1, 0⟩ ∧
    (playSound (playSound loadedPad0 0).1 0).1.liveVoices.filter
      (fun w => decide (w.pad = 0)) = [⟨loadedPad0.nextVoiceId + 1, 0⟩] ∧
    (playSound (playSound loadedPad0 0).1 0).1.events =
      (playSound loadedPad0 0).1.events ++
        [Event.voiceStopped loadedPad0.nextVoiceId,
         Event.voiceStarted (loadedPad0.nextVoiceId + 1) 0] :=
  play_retrigger_cuts_previous_voice loadedPad0 0 testBuffer
    (by norm_num) (by norm_num) rfl
    (by intro w hw; simp [loadedPad0, loadBuffer, initEngine] at hw)
    (by constructor <;> intro h <;> rfl)

/-- Whether an event is an `onProgress` invocation. -/
def Event.isProgress : Event → Bool
  | Event.progress _ _ => true
  | _ => false

/-- Whether an event is an `onPadLoaded` invocation. -/
def Event.isPadLoaded : Event → Bool
  | Event.padLoaded _ _ => true
  | _ => false

/-- Spec-side expected callback trace of the per-sound loop of
`loadPreset` (after the initial `onProgress(0, total)`): for the `i`-th
declared sound, `onPadLoaded(pad_i, ok_i)` followed by
`onProgress(loaded + i + 1, total)`, in declared-list order. -/
def presetTraceSpec (total loaded : ℕ) (sounds : List PresetSound)
    (oracle : PresetSound → Option AudioBuffer) : List Event :=
  match sounds with
  | [] => []
  | s :: rest =>
      Event.padLoaded s.pad (loadSoundOk s.pad (oracle s)) ::
      Event.progress (loaded + 1) total ::
      presetTraceSpec total (loaded + 1) rest oracle

lemma loadSound_events (e : AudioEngine) (url : String) (p : ℤ)
    (f : Option AudioBuffer) : (loadSound e url p f).1.events = e.events := by
  unfold loadSound
  split
  · rfl
  · cases f <;> rfl

lemma loadSound_snd (e : AudioEngine) (url : String) (p : ℤ)
    (f : Option AudioBuffer) : (loadSound e url p f).2 = loadSoundOk p f := by
  unfold loadSound loadSoundOk
  split
  · rfl
  · cases f <;> rfl

lemma loadPresetLoop_events (sounds : List PresetSound) (e : AudioEngine)
    (total loaded : ℕ) (oracle : PresetSound → Option AudioBuffer) :
    (loadPresetLoop e sounds total loaded oracle).events =
      e.events ++ presetTraceSpec total loaded sounds oracle := by
  induction sounds generalizing e loaded with
  | nil => simp [loadPresetLoop, presetTraceSpec]
  | cons s rest ih =>
      simp only [loadPresetLoop]
      rw [ih]
      simp [loadSound_events, loadSound_snd, presetTraceSpec]

lemma presetTraceSpec_progress (sounds : List PresetSound) (total loaded : ℕ)
    (oracle : PresetSound → Option AudioBuffer) :
    (presetTraceSpec total loaded sounds oracle).filter Event.isProgress =
      (List.range' (loaded + 1) sounds.length).map
        (fun k => Event.progress k total) := by
  induction sounds generalizing loaded with
  | nil => simp [presetTraceSpec]
  | cons s rest ih =>
      simp only [presetTraceSpec, List.filter_cons, Event.isProgress,
        List.length_cons, List.range'_succ, List.map_cons]
      simp [ih]

lemma presetTraceSpec_padLoaded (sounds : List PresetSound) (total loaded : ℕ)
    (oracle : PresetSound → Option AudioBuffer) :
    (presetTraceSpec total loaded sounds oracle).filter Event.isPadLoaded =
      sounds.map (fun s => Event.padLoaded s.pad (loadSoundOk s.pad (oracle s))) := by
  induction sounds generalizing loaded with
  | nil => simp [presetTraceSpec]
  | cons s rest ih =>
      simp only [presetTraceSpec, List.filter_cons, Event.isPadLoaded,
        List.map_cons]
      simp [ih]

/-- C5: for a successfully fetched preset descriptor, `loadPreset` returns
true even when per-sound loads fail, its callback trace is exactly
`onProgress(0, total)` followed per declared sound (in declared-list
order) by `onPadLoaded(pad, ok)` and `onProgress(k, total)`, the progress
invocations are exactly `(0,total), (1,total), …, (total,total)` in that
strictly increasing order, and the pad callbacks carry each sound's own
success flag. -/
theorem loadPreset_callback_discipline (e : AudioEngine) (pr : Preset)
    (oracle : PresetSound → Option AudioBuffer) :
    (loadPreset e (some pr) oracle).2 = true ∧
    (loadPreset e (some pr) oracle).1.events =
      e.events ++ (Event.progress 0 pr.sounds.length ::
        presetTraceSpec pr.sounds.length 0 pr.sounds oracle) ∧
    (Event.progress 0 pr.sounds.length ::
        presetTraceSpec pr.sounds.length 0 pr.sounds oracle).filter
      Event.isProgress =
      (List.range (pr.sounds.length + 1)).map
        (fun k => Event.progress k pr.sounds.length) ∧
    (Event.progress 0 pr.sounds.length ::
        presetTraceSpec pr.sounds.length 0 pr.sounds oracle).filter
      Event.isPadLoaded =
      pr.sounds.map
        (fun s => Event.padLoaded s.pad (loadSoundOk s.pad (oracle s))) := by
  refine ⟨rfl, ?_, ?_, ?_⟩
  · show (loadPresetLoop _ pr.sounds pr.sounds.length 0 oracle).events = _
    rw [loadPresetLoop_events]
    simp
  · rw [List.filter_cons_of_pos (by rfl), presetTraceSpec_progress,
      List.range_eq_range', List.range'_succ, List.map_cons]
  · rw [List.filter_cons_of_neg (by simp [Event.isPadLoaded]),
      presetTraceSpec_padLoaded]

/-- C10: when the preset-descriptor fetch or parse fails, `loadPreset`
returns false and mutates nothing: the pad buffers and source URLs (and
every other engine field) are exactly as before the call — the 16 slots
are cleared only after a successful fetch+parse. -/
theorem loadPreset_fetch_failure_no_mutation (e : AudioEngine)
    (oracle : PresetSound → Option AudioBuffer) :
    loadPreset e none oracle = (e, false) ∧
    (loadPreset e none oracle).1.buffers = e.buffers ∧
    (loadPreset e none oracle).1.soundUrls = e.soundUrls ∧
    (loadPreset e none oracle).1.trimStart = e.trimStart ∧
    (loadPreset e none oracle).1.trimEnd = e.trimEnd :=
  ⟨rfl, rfl, rfl, rfl, rfl⟩

lemma list_map_self {α : Type} (l : List α) (f : α → α)
    (h : ∀ x ∈ l, f x = x) : l.map f = l := by
  induction l with
  | nil => rfl
  | cons a t ih =>
      simp only [List.map_cons, h a (by simp)]
      rw [ih (fun x hx => h x (by simp [hx]))]

lemma getD_map_of_lt {α β : Type} (l : List α) (f : α → β) (c : ℕ)
    (d : β) (d0 : α) (hc : c < l.length) :
    (l.map f).getD c d = f (l.getD c d0) := by
  rw [List.getD_eq_getElem?_getD, List.getElem?_eq_getElem (by simpa using hc)]
  rw [List.getD_eq_getElem?_getD, List.getElem?_eq_getElem hc]
  simp

lemma map_range_getD (ch : List ℚ) (n : ℕ) (h : ch.length = n) :
    (List.range n).map (fun i => ch.getD i 0) = ch := by
  apply List.ext_getElem
  · simp [h]
  · intro i h1 h2
    simp [List.getD_eq_getElem?_getD, List.getElem?_eq_getElem, h2]

lemma reverse_channel_twice (ch : List ℚ) (n : ℕ) (h : ch.length = n) :
    (List.range n).map (fun i =>
      ((List.range n).map (fun j => ch.getD (n - 1 - j) 0)).getD (n - 1 - i) 0)
      = ch := by
  have hpt : ∀ i ∈ List.range n,
      ((List.range n).map (fun j => ch.getD (n - 1 - j) 0)).getD (n - 1 - i) 0
        = ch.getD i 0 := by
    intro i hi
    have hin : i < n := List.mem_range.mp hi
    have hlt : n - 1 - i < n := by omega
    rw [List.getD_eq_getElem?_getD, List.getElem?_eq_getElem (by simpa using hlt)]
    simp only [List.getElem_map, List.getElem_range, Option.getD_some]
    congr 1
    omega
  rw [List.map_congr_left hpt]
  exact map_range_getD ch n h

lemma audioBuffer_ext_fields (a b : AudioBuffer)
    (h1 : a.numberOfChannels = b.numberOfChannels) (h2 : a.length = b.length)
    (h3 : a.sampleRate = b.sampleRate) (h4 : a.data = b.data) : a = b := by
  cases a
  cases b
  simp_all

lemma getReversedBuffer_data_twice (b : AudioBuffer) (hwf : b.wf) :
    (getReversedBuffer (getReversedBuffer b)).data = b.data := by
  show ((b.data.map _).map _) = b.data
  rw [List.map_map]
  apply list_map_self
  intro ch hch
  exact reverse_channel_twice ch b.length (hwf.2 ch hch)

/-- C6: `getReversedBuffer` preserves channel count, length and sample
rate, each channel's samples are fully inverted
(`reversed[i] = original[length − 1 − i]`), and applying it twice restores
every sample: the double reversal is sample-identical to the original
buffer. -/
theorem getReversed_involution (b : AudioBuffer) (hwf : b.wf) :
    (getReversedBuffer b).numberOfChannels = b.numberOfChannels ∧
    (getReversedBuffer b).length = b.length ∧
    (getReversedBuffer b).sampleRate = b.sampleRate ∧
    (∀ c i, c < b.numberOfChannels → i < b.length →
      (getReversedBuffer b).sample c i = b.sample c (b.length - 1 - i)) ∧
    getReversedBuffer (getReversedBuffer b) = b := by
  refine ⟨rfl, rfl, rfl, ?_, ?_⟩
  · intro c i hc hi
    have hc' : c < b.data.length := by rw [hwf.1]; exact hc
    show ((b.data.map _).getD c []).getD i 0 = _
    rw [getD_map_of_lt b.data _ c [] [] hc']
    rw [List.getD_eq_getElem?_getD, List.getElem?_eq_getElem (by simpa using hi)]
    simp only [List.getElem_map, List.getElem_range, Option.getD_some]
    rfl
  · exact audioBuffer_ext_fields _ _ rfl rfl rfl (getReversedBuffer_data_twice b hwf)

/-- A small two-channel buffer used as the C6 witness input. -/
def stereoBuffer : AudioBuffer where
  numberOfChannels := 2
  length := 3
  sampleRate := 441
  data := [[1, 2, 3], [4, -5, 6]]

/-- Witness for C6 on the concrete two-channel buffer. -/
theorem getReversed_involution_witness :
    (getReversedBuffer stereoBuffer).numberOfChannels =
      stereoBuffer.numberOfChannels ∧
    (getReversedBuffer stereoBuffer).length = stereoBuffer.length ∧
    (getReversedBuffer stereoBuffer).sampleRate = stereoBuffer.sampleRate ∧
    (∀ c i, c < stereoBuffer.numberOfChannels → i < stereoBuffer.length →
      (getReversedBuffer stereoBuffer).sample c i =
        stereoBuffer.sample c (stereoBuffer.length - 1 - i)) ∧
    getReversedBuffer (getReversedBuffer stereoBuffer) = stereoBuffer :=
  getReversed_involution stereoBuffer (by decide)
